import Mathlib

/-!
Shallow embedding of the snapshot delta / progress-tracking engine of the
`osrs_hiscore_pull` repository, together with theorems settling the claims
about it.

Conventions used throughout the embedding:
* Python `None`-able numeric fields become `Option Int`; Python treats the
  missing key and `None` the same way in the code modelled here
  (`x.get(k)` / `x.get(k, 0) or 0`).
* ISO-8601 UTC timestamps compare lexicographically in the same order as the
  instants they denote, so timestamps are modelled as `Option Int`
  (seconds since the epoch, `none` = missing/unparsable value).
* Python dicts are modelled as association lists in insertion order;
  assignment to an existing key replaces the value in place (`upsert`),
  lookups are `alookup`.
* Python `sorted` (also with `reverse=True`) is stable; it is modelled by the
  stable insertion sort `stableSort`.
-/

namespace Osrs

/-! ### Python dict model -/

/-- Dict lookup (`d.get(k)`), first binding wins (association lists built by
`upsert` have unique keys, so this is the dict binding). -/
def alookup {κ α : Type} [DecidableEq κ] (k : κ) : List (κ × α) → Option α
  | [] => none
  | (k', a) :: rest => if k' = k then some a else alookup k rest

/-- Dict assignment `d[k] = e`: replaces the binding in place when the key is
present (keeping its position, as CPython dicts do), appends otherwise. -/
def upsert {κ α : Type} [DecidableEq κ] (acc : List (κ × α)) (k : κ) (e : α) :
    List (κ × α) :=
  if acc.any (fun p => p.1 = k) then
    acc.map (fun p => if p.1 = k then (k, e) else p)
  else acc ++ [(k, e)]

/-- Build a dict from a list of records, keyed by `toKey` (records with
`toKey = none` are skipped); later records overwrite earlier ones. -/
def dictBy {κ α : Type} [DecidableEq κ] (toKey : α → Option κ) (l : List α) :
    List (κ × α) :=
  l.foldl (fun acc e =>
    match toKey e with
    | some k => upsert acc k e
    | none => acc) []

/-! ### Stable sorting (Python `sorted`) -/

/-- Insert `e` into `l` keeping every `x` with `before x e` in front of it.
With `before x e = key x > key e` this yields Python's stable
`sorted(..., reverse=True)` when folded from the right. -/
def stableInsert {α : Type} (before : α → α → Bool) (e : α) : List α → List α
  | [] => [e]
  | x :: xs => if before x e then x :: stableInsert before e xs else e :: x :: xs

/-- Stable sort: Python `sorted` with the strict precedence test `before`. -/
def stableSort {α : Type} (before : α → α → Bool) (l : List α) : List α :=
  l.foldr (stableInsert before) []

/-! ### String helpers (Python `str.lower` / `str.strip` / `str.startswith`,
defined on the character list so they evaluate in the kernel; the strings
they are applied to in this codebase are ASCII) -/

def asciiLower (c : Char) : Char :=
  if 65 ≤ c.toNat ∧ c.toNat ≤ 90 then Char.ofNat (c.toNat + 32) else c

/-- `s.lower()`. -/
def strLower (s : String) : String := ⟨s.data.map asciiLower⟩

/-- `s.strip()`. -/
def strStrip (s : String) : String :=
  ⟨((s.data.dropWhile Char.isWhitespace).reverse.dropWhile Char.isWhitespace).reverse⟩

/-- `s.startswith(pre)`. -/
def strStartsWith (s pre : String) : Bool := pre.data.isPrefixOf s.data

/-! ### `core/processing.py` data model -/

/-- A skill dict inside a snapshot payload (`{"name", "level", "xp", "rank"}`,
possibly carrying `id`/`skill_id` when it came from an import file). -/
structure SkillEntry where
  name : Option String := none
  level : Option Int := none
  xp : Option Int := none
  rank : Option Int := none
  id : Option Int := none
  skill_id : Option Int := none
deriving Repr, DecidableEq

/-- An activity dict inside a snapshot payload. -/
structure ActivityEntry where
  name : Option String := none
  score : Option Int := none
  rank : Option Int := none
  id : Option Int := none
  activity_id : Option Int := none
deriving Repr, DecidableEq

/-- The `data` part of a snapshot payload: `{"skills": [...], "activities": [...]}`. -/
structure SnapshotData where
  skills : List SkillEntry := []
  activities : List ActivityEntry := []
deriving Repr, DecidableEq

/-- `_safe_number`: a missing/null numeric value counts as 0. -/
def safeNumber : Option Int → Int
  | some v => v
  | none => 0

/-- `_number_delta(old, new)`. -/
def numberDelta (old new : Option Int) : Int := safeNumber new - safeNumber old

/-- Truthiness of `entry.get("name")`: `None` and `""` are falsy and dropped
by `_index_by_name`. -/
def truthyName : Option String → Option String
  | some n => if n = "" then none else some n
  | none => none

/-- `_index_by_name` for skills: `{entry["name"]: entry}` over entries with a
truthy name. -/
def skillIndex (skills : List SkillEntry) : List (String × SkillEntry) :=
  dictBy (fun e => truthyName e.name) skills

/-- `_index_by_name` for activities. -/
def activityIndex (activities : List ActivityEntry) : List (String × ActivityEntry) :=
  dictBy (fun e => truthyName e.name) activities

/-- One retained skill delta `{name, xp_delta, level_delta}`. -/
structure SkillDelta where
  name : String
  xp_delta : Int
  level_delta : Int
deriving Repr, DecidableEq

/-- One retained activity delta `{name, score_delta}`. -/
structure ActivityDelta where
  name : String
  score_delta : Int
deriving Repr, DecidableEq

/-- The result of `compute_snapshot_delta`. -/
structure Delta where
  total_xp_delta : Int
  skill_deltas : List SkillDelta
  activity_deltas : List ActivityDelta
deriving Repr, DecidableEq

/-- The loop body over a current skill `p`: its delta against the previous
index, retained only when XP or level strictly increased. -/
def skillDeltaEntry (prevSkills : List (String × SkillEntry))
    (p : String × SkillEntry) : Option SkillDelta :=
  let prevSkill := alookup p.1 prevSkills
  let xpDelta := numberDelta (prevSkill.bind SkillEntry.xp) p.2.xp
  let levelDelta := numberDelta (prevSkill.bind SkillEntry.level) p.2.level
  if 0 < xpDelta ∨ 0 < levelDelta then
    some { name := p.1, xp_delta := xpDelta, level_delta := levelDelta }
  else none

/-- The loop body over a current activity `p`: retained when the score
strictly increased. -/
def activityDeltaEntry (prevActivities : List (String × ActivityEntry))
    (p : String × ActivityEntry) : Option ActivityDelta :=
  let prevActivity := alookup p.1 prevActivities
  let scoreDelta := numberDelta (prevActivity.bind ActivityEntry.score) p.2.score
  if 0 < scoreDelta then some { name := p.1, score_delta := scoreDelta } else none

/-- `compute_snapshot_delta(previous, current)` from `core/processing.py`. -/
def computeSnapshotDelta (previous current : SnapshotData) : Delta :=
  let prevSkills := skillIndex previous.skills
  let currSkills := skillIndex current.skills
  let prevActivities := activityIndex previous.activities
  let currActivities := activityIndex current.activities
  let skillDeltas : List SkillDelta := currSkills.filterMap (skillDeltaEntry prevSkills)
  let activityDeltas : List ActivityDelta :=
    currActivities.filterMap (activityDeltaEntry prevActivities)
  let totalXpPrev := (previous.skills.map (fun s => safeNumber s.xp)).sum
  let totalXpCurr := (current.skills.map (fun s => safeNumber s.xp)).sum
  { total_xp_delta := totalXpCurr - totalXpPrev,
    skill_deltas := stableSort (fun a b => decide (b.xp_delta < a.xp_delta)) skillDeltas,
    activity_deltas :=
      stableSort (fun a b => decide (b.score_delta < a.score_delta)) activityDeltas }

/-! ### `summarize_delta` / `format_number` from `core/processing.py`

`format_number` divides by 1e3/1e6/1e9 and prints with two decimals; CPython
does this on IEEE doubles, modelled here with exact rational rounding
(round-half-even), which agrees except for double-rounding artefacts on
values no claim depends on. -/

/-- Round `num / den` (`den > 0`) to the nearest integer, ties to even. -/
def roundHalfEven (num den : Int) : Int :=
  let q := num.fdiv den
  let r := num.fmod den
  if 2 * r < den then q
  else if den < 2 * r then q + 1
  else if q.fmod 2 = 0 then q else q + 1

/-- Print `x100 / 100` with exactly two decimal places (`f"{v:.2f}"`). -/
def format2f (x100 : Int) : String :=
  let a := x100.natAbs
  let ip := a / 100
  let fp := a % 100
  let fs := if fp < 10 then "0" ++ toString fp else toString fp
  (if x100 < 0 then "-" else "") ++ toString ip ++ "." ++ fs

/-- `format_number(value)`: K/M/B suffixes at 1e3/1e6/1e9, two decimals,
`-0.00…` collapsed to `"0"`. -/
def formatNumber (value : Int) : String :=
  let absV := value.natAbs
  let formatted :=
    if 1000000000 ≤ absV then format2f (roundHalfEven (value * 100) 1000000000) ++ "B"
    else if 1000000 ≤ absV then format2f (roundHalfEven (value * 100) 1000000) ++ "M"
    else if 1000 ≤ absV then format2f (roundHalfEven (value * 100) 1000) ++ "K"
    else toString value
  if strStartsWith formatted "-0.00" then "0" else formatted

/-- `summarize_delta(delta)`: one-line human-readable summary. -/
def summarizeDelta (delta : Delta) : String :=
  let fragments0 : List String := []
  let fragments1 :=
    if delta.total_xp_delta ≠ 0 then
      fragments0 ++ ["ΔXP " ++ formatNumber delta.total_xp_delta]
    else fragments0
  let leveled := delta.skill_deltas.filter (fun s => 0 < s.level_delta)
  let fragments2 :=
    if leveled ≠ [] then
      fragments1 ++ ["Levels: " ++ String.intercalate ", "
        ((leveled.take 3).map (fun s => s.name ++ "(+" ++ toString s.level_delta ++ ")"))]
    else if delta.skill_deltas ≠ [] then
      fragments1 ++ ["XP gains: " ++ String.intercalate ", "
        ((delta.skill_deltas.take 3).map
          (fun s => s.name ++ "(" ++ formatNumber s.xp_delta ++ ")"))]
    else fragments1
  let fragments3 :=
    if delta.activity_deltas ≠ [] then
      fragments2 ++ ["Activities: " ++ String.intercalate ", "
        ((delta.activity_deltas.take 3).map
          (fun a => a.name ++ "(+" ++ toString a.score_delta ++ ")"))]
    else fragments2
  if fragments3 = [] then "No changes since last snapshot."
  else String.intercalate " | " fragments3

/-! ### `core/mode_cache.py` -/

/-- One cache row: `player_name -> (mode, updated_at)`. -/
structure ModeRecord where
  mode : String
  updated_at : String
deriving Repr, DecidableEq

/-- In-memory `ModeCache` state: the `_data` dict plus the `_dirty` flag.
(The backing file only changes on `persist`, modelled by its `Bool` result.) -/
structure ModeCacheState where
  data : List (String × ModeRecord) := []
  dirty : Bool := false
deriving Repr, DecidableEq

/-- `ModeCache.get(player)`. -/
def ModeCacheState.get (c : ModeCacheState) (player : String) : Option String :=
  (alookup player c.data).map ModeRecord.mode

/-- `ModeCache.update(player, mode)`; `now` stands for
`datetime.now(timezone.utc).isoformat()`. -/
def ModeCacheState.update (c : ModeCacheState) (player mode now : String) :
    ModeCacheState :=
  match alookup player c.data with
  | some existing =>
    if existing.mode = mode then c
    else { data := upsert c.data player ⟨mode, now⟩, dirty := true }
  | none => { data := upsert c.data player ⟨mode, now⟩, dirty := true }

/-- `ModeCache.persist()`: returns the new state and whether the file was
written (it is written exactly when the cache was dirty). -/
def ModeCacheState.persist (c : ModeCacheState) : ModeCacheState × Bool :=
  if c.dirty then ({ c with dirty := false }, true) else (c, false)

/-! ### `web/services/detect_mode.py` -/

def IRON_FAMILY : List String :=
  ["hardcore", "hardcore_group_ironman", "ironman", "group_ironman", "ultimate"]

def FALLBACK_MODES : List String := ["main", "tournament", "seasonal", "deadman"]

def STABLE_CACHED_MODES : List String := ["ironman", "group_ironman", "ultimate", "main"]

/-- Keys of `core.constants.GAME_MODES`, in insertion order. -/
def GAME_MODES : List String :=
  ["main", "ironman", "hardcore", "ultimate", "group_ironman",
   "hardcore_group_ironman", "deadman", "tournament", "seasonal"]

/-- Shapes `_extract_overall` understands for the first element of
`data["skills"]`: a dict row, a list/tuple row, or anything else. -/
inductive RawSkillRow where
  | dictRow (level xp : Option Int)
  | listRow (cells : List Int)
  | other
deriving Repr, DecidableEq

/-- The raw payload handed back by `HiscoreClient.fetch`, as far as
`_extract_overall` inspects it (`data.get("skills")` must be a non-empty
list to yield anything). -/
structure RawData where
  skills : Option (List RawSkillRow) := none
deriving Repr, DecidableEq

/-- `_extract_overall(data) -> (xp, level)`. -/
def extractOverall (data : RawData) : Option Int × Option Int :=
  match data.skills with
  | some (first :: _) =>
    match first with
    | .dictRow level xp => (xp, level)
    | .listRow cells =>
      if 3 ≤ cells.length then (cells.get? 2, cells.get? 1) else (none, none)
    | .other => (none, none)
  | _ => (none, none)

/-- One entry of the `successes` dict: `{"xp": .., "level": .., "url": ..}`. -/
structure SuccessEntry where
  xp : Option Int := none
  level : Option Int := none
  url : String := ""
deriving Repr, DecidableEq

/-- `_xp_value(entry)`: `int(entry["xp"])`, `-1` when that raises. -/
def xpValue (entry : SuccessEntry) : Int :=
  match entry.xp with
  | some v => v
  | none => -1

/-- `{m: successes[m] for m in IRON_FAMILY if m in successes}`. -/
def ironCandidates (successes : List (String × SuccessEntry)) :
    List (String × SuccessEntry) :=
  IRON_FAMILY.filterMap (fun m => (alookup m successes).map (fun e => (m, e)))

/-- `priority.get(m, 0)` where `priority = {m: i for i, m in enumerate(IRON_FAMILY)}`. -/
def ironPriority (m : String) : Int :=
  match IRON_FAMILY.indexOf? m with
  | some i => (i : Int)
  | none => 0

/-- Python `max(items, key=...)`: first item whose key is strictly greater
than every earlier one (left fold keeping the current maximum). -/
def pyMax {α : Type} (gtKey : α → α → Bool) : α → List α → α
  | best, [] => best
  | best, x :: xs => pyMax gtKey (if gtKey x best then x else best) xs

/-- Key comparison for the iron-family `max`: lexicographic on
`(_xp_value(entry), -priority[mode])`. -/
def ironKeyGt (a b : String × SuccessEntry) : Bool :=
  decide (xpValue b.2 < xpValue a.2) ||
    (decide (xpValue a.2 = xpValue b.2) && decide (ironPriority a.1 < ironPriority b.1))

/-- `_pick_best_mode(successes)`. Python raises on an empty dict (`max` of an
empty sequence); that case is unreachable at the call site and returns `""`
here. -/
def pickBestMode (successes : List (String × SuccessEntry)) : String :=
  let ironCands := ironCandidates successes
  match alookup "hardcore" ironCands, alookup "ironman" ironCands with
  | some hc, some im => if xpValue hc < xpValue im then "ironman" else "hardcore"
  | _, _ =>
    match alookup "hardcore_group_ironman" ironCands, alookup "group_ironman" ironCands with
    | some hcg, some gi =>
      if xpValue hcg < xpValue gi then "group_ironman" else "hardcore_group_ironman"
    | _, _ =>
      match ironCands with
      | c :: cs => (pyMax ironKeyGt c cs).1
      | [] =>
        if (alookup "main" successes).isSome then "main"
        else
          match successes with
          | s :: ss => (pyMax (fun a b => decide (xpValue b.2 < xpValue a.2)) s ss).1
          | [] => ""

/-- Outcome of one `HiscoreClient.fetch(player, mode)` call: success with a
payload and URL, `PlayerNotFoundError`, or any other exception. -/
inductive FetchOutcome where
  | found (data : RawData) (url : String)
  | notFound
  | error (msg : String)
deriving Repr, DecidableEq

/-- The dict returned by `detect_mode`; `none` on an `Option` field means the
key is absent from the dict (`xp`/`level` keys can be present holding null). -/
structure DetectResult where
  status : String
  mode : Option String := none
  cached : Option Bool := none
  tested_modes : Option (List String) := none
  url : Option String := none
  xp : Option (Option Int) := none
  level : Option (Option Int) := none
  error : Option String := none
deriving Repr, DecidableEq

/-- `(requested_mode or "auto").lower().strip()`. -/
def normalizeRequested (rm : String) : String :=
  strStrip (strLower (if rm = "" then "auto" else rm))

/-- `requested_mode in ("auto", "auto-detect")`. -/
def isAutoMode (rm : String) : Bool := rm = "auto" || rm = "auto-detect"

/-- `_add_unique(seq, mode)` inside `detect_mode`. -/
def addUnique (seq : List String) (mode : String) : List String :=
  if mode ∈ GAME_MODES ∧ mode ∉ seq then seq ++ [mode] else seq

/-- The auto-detect candidate probe order: cached mode (if truthy), the iron
family, the fallback modes, then every remaining mode, deduplicated. -/
def buildCandidates (cacheMode : Option String) : List String :=
  let c0 : List String := []
  let c1 := match cacheMode with
    | some m => if m = "" then c0 else addUnique c0 m
    | none => c0
  let c2 := IRON_FAMILY.foldl addUnique c1
  let c3 := FALLBACK_MODES.foldl addUnique c2
  GAME_MODES.foldl addUnique c3

/-- The auto-detect probe loop: collect `successes` in probe order, skip
not-found modes, abort on the first transport error. -/
def probeAll (fetch : String → String → FetchOutcome) (player : String) :
    List String → List (String × SuccessEntry) → Except String (List (String × SuccessEntry))
  | [], acc => .ok acc
  | m :: ms, acc =>
    match fetch player m with
    | .found data url =>
      let (xp, level) := extractOverall data
      probeAll fetch player ms (acc ++ [(m, ⟨xp, level, url⟩)])
    | .notFound => probeAll fetch player ms acc
    | .error msg => .error msg

/-- `cache_mode in STABLE_CACHED_MODES` (false when there is no cached mode). -/
def isStableCached (cacheMode : Option String) : Bool :=
  match cacheMode with
  | some m => decide (m ∈ STABLE_CACHED_MODES)
  | none => false

/-- `detect_mode(player, requested_mode, cache_path, force)`.
`fetch` stands for the `HiscoreClient`, `cache` for the `ModeCache` loaded
from `cache_path`, and `now` for the wall clock used when the cache is
updated. Returns the result dict together with the cache state afterwards. -/
def detectMode (fetch : String → String → FetchOutcome) (player rm : String)
    (cache : ModeCacheState) (force : Bool) (now : String) :
    DetectResult × ModeCacheState :=
  let nm := normalizeRequested rm
  let cacheMode := cache.get player
  match ¬force && isAutoMode nm && isStableCached cacheMode, isAutoMode nm with
  | true, _ =>
    ({ status := "found", mode := cacheMode, cached := some true,
       tested_modes := some [] }, cache)
  | false, false =>
    match decide (nm ∈ GAME_MODES) with
    | false => ({ status := "error", error := some ("Unknown mode: " ++ nm) }, cache)
    | true =>
      match fetch player nm with
      | .found data url =>
        let cache1 := (cache.update player nm now).persist |>.1
        let (xp, level) := extractOverall data
        ({ status := "found", mode := some nm, url := some url,
           xp := some xp, level := some level }, cache1)
      | .notFound => ({ status := "not_found" }, cache)
      | .error msg => ({ status := "error", error := some msg }, cache)
  | false, true =>
    let candidates := buildCandidates cacheMode
    match probeAll fetch player candidates [] with
    | .error msg => ({ status := "error", error := some msg }, cache)
    | .ok [] => ({ status := "not_found" }, cache)
    | .ok successes =>
      let bestMode := pickBestMode successes
      let cache1 := (cache.update player bestMode now).persist |>.1
      let bestEntry := alookup bestMode successes
      ({ status := "found", mode := some bestMode,
         url := bestEntry.map SuccessEntry.url,
         xp := bestEntry.map SuccessEntry.xp,
         level := bestEntry.map SuccessEntry.level,
         tested_modes := some (successes.map Prod.fst) }, cache1)

/-! ### `core/constants.py` data used by ingestion -/

/-- `core.constants.SKILLS` (lowercase names, in hiscore order). -/
def SKILLS : List String :=
  ["overall", "attack", "defence", "strength", "hitpoints", "ranged", "prayer",
   "magic", "cooking", "woodcutting", "fletching", "fishing", "firemaking",
   "crafting", "smithing", "mining", "herblore", "agility", "thieving",
   "slayer", "farming", "runecraft", "hunter", "construction", "sailing"]

/-- `core.constants.ACTIVITY_LOOKUP` (clue, minigame, point and boss
activities merged, insertion order). -/
def ACTIVITY_LOOKUP : List (String × String) := [
  ("allClues", "Clue Scrolls (all)"),
  ("beginnerClues", "Clue Scrolls (beginner)"),
  ("easyClues", "Clue Scrolls (easy)"),
  ("mediumClues", "Clue Scrolls (medium)"),
  ("hardClues", "Clue Scrolls (hard)"),
  ("eliteClues", "Clue Scrolls (elite)"),
  ("masterClues", "Clue Scrolls (master)"),
  ("rogueBH", "Bounty Hunter (Legacy - Rogue)"),
  ("hunterBH", "Bounty Hunter (Legacy - Hunter)"),
  ("rogueBHV2", "Bounty Hunter (Rogue)"),
  ("hunterBHV2", "Bounty Hunter (Hunter)"),
  ("lastManStanding", "LMS - Rank"),
  ("pvpArena", "PvP Arena - Rank"),
  ("soulWarsZeal", "Soul Wars Zeal"),
  ("riftsClosed", "Rifts Closed"),
  ("colosseumGlory", "Colosseum Glory"),
  ("collectionsLogged", "Collections Logged"),
  ("leaguePoints", "League Points"),
  ("deadmanPoints", "Deadman Points"),
  ("abyssalSire", "Abyssal Sire"),
  ("alchemicalHydra", "Alchemical Hydra"),
  ("amoxliatl", "Amoxliatl"),
  ("araxxor", "Araxxor"),
  ("artio", "Artio"),
  ("barrows", "Barrows Chests"),
  ("bryophyta", "Bryophyta"),
  ("callisto", "Callisto"),
  ("calvarion", "Calvar\x27ion"),
  ("cerberus", "Cerberus"),
  ("chambersOfXeric", "Chambers of Xeric"),
  ("chambersOfXericChallengeMode", "Chambers of Xeric: Challenge Mode"),
  ("chaosElemental", "Chaos Elemental"),
  ("chaosFanatic", "Chaos Fanatic"),
  ("commanderZilyana", "Commander Zilyana"),
  ("corporealBeast", "Corporeal Beast"),
  ("crazyArchaeologist", "Crazy Archaeologist"),
  ("dagannothPrime", "Dagannoth Prime"),
  ("dagannothRex", "Dagannoth Rex"),
  ("dagannothSupreme", "Dagannoth Supreme"),
  ("derangedArchaeologist", "Deranged Archaeologist"),
  ("doomOfMokhaiotl", "Doom of Mokhaiotl"),
  ("dukeSucellus", "Duke Sucellus"),
  ("generalGraardor", "General Graardor"),
  ("giantMole", "Giant Mole"),
  ("grotesqueGuardians", "Grotesque Guardians"),
  ("hespori", "Hespori"),
  ("kalphiteQueen", "Kalphite Queen"),
  ("kingBlackDragon", "King Black Dragon"),
  ("kraken", "Kraken"),
  ("kreeArra", "Kree\x27arra"),
  ("krilTsutsaroth", "K\x27ril Tsutsaroth"),
  ("lunarChests", "Lunar Chests"),
  ("mimic", "Mimic"),
  ("nex", "Nex"),
  ("nightmare", "The Nightmare"),
  ("phosanisNightmare", "Phosani\x27s Nightmare"),
  ("obor", "Obor"),
  ("phantomMuspah", "Phantom Muspah"),
  ("sarachnis", "Sarachnis"),
  ("scorpia", "Scorpia"),
  ("scurrius", "Scurrius"),
  ("skotizo", "Skotizo"),
  ("solHeredit", "Sol Heredit"),
  ("spindel", "Spindel"),
  ("tempoross", "Tempoross"),
  ("gauntlet", "The Gauntlet"),
  ("corruptedGauntlet", "The Corrupted Gauntlet"),
  ("hueycoatl", "The Hueycoatl"),
  ("leviathan", "The Leviathan"),
  ("royalTitans", "The Royal Titans"),
  ("whisperer", "The Whisperer"),
  ("theatreOfBlood", "Theatre of Blood"),
  ("theatreOfBloodHardMode", "Theatre of Blood: Hard Mode"),
  ("thermonuclearSmokeDevil", "Thermonuclear Smoke Devil"),
  ("tombsOfAmascut", "Tombs of Amascut"),
  ("tombsOfAmascutExpertMode", "Tombs of Amascut: Expert Mode"),
  ("tzKalZuk", "TzKal-Zuk"),
  ("tzTokJad", "TzTok-Jad"),
  ("vardorvis", "Vardorvis"),
  ("venenatis", "Venenatis"),
  ("vetion", "Vet\x27ion"),
  ("vorkath", "Vorkath"),
  ("wintertodt", "Wintertodt"),
  ("yama", "Yama"),
  ("zalcano", "Zalcano"),
  ("zulrah", "Zulrah")]

/-! ### Relational store (`database` schema), as used by the services -/

/-- Python `a or b` on an optional int: falsy (`None`/`0`) falls through. -/
def pyOrInt (a b : Option Int) : Option Int :=
  match a with
  | some v => if v = 0 then b else some v
  | none => b

/-- Python `a or b` on an optional string with a string default. -/
def pyOrStr (a : Option String) (b : String) : String :=
  match a with
  | some s => if s = "" then b else s
  | none => b

/-- `str(entry.get("name", ""))` (a JSON-null name would render as `"None"`;
like `""` it matches no skill or activity name, so both are modelled as `""`). -/
def pyNameStr : Option String → String
  | some n => n
  | none => ""

/-- A row of `accounts`. -/
structure AccountRow where
  id : Int
  name : String
  default_mode : String
deriving Repr, DecidableEq

/-- A row of `snapshots` (the serialized `metadata` JSON blob column is not
modelled; nothing reads it back). -/
structure SnapshotRow where
  id : Int
  snapshot_id : Option String := none
  account_id : Int
  fetched_at : Option Int := none
  total_xp : Option Int := none
  total_level : Option Int := none
  endpoint : Option String := none
  latency_ms : Option Int := none
  agent_version : Option String := none
  requested_mode : Option String := none
  resolved_mode : String := "main"
deriving Repr, DecidableEq

/-- A row of `skills`. -/
structure SkillRow where
  snapshot_id : Int
  skill_id : Int
  name : Option String := none
  level : Option Int := none
  xp : Option Int := none
  rank : Option Int := none
deriving Repr, DecidableEq

/-- A dynamically-typed SQLite value: `_insert_activities` stores either an
int (explicit id or positional index) or a string (`ACTIVITY_LOOKUP` hit). -/
inductive SqlId where
  | int (n : Int)
  | str (s : String)
deriving Repr, DecidableEq

/-- A row of `activities`. -/
structure ActivityRow where
  snapshot_id : Int
  activity_id : SqlId
  name : Option String := none
  score : Option Int := none
  rank : Option Int := none
deriving Repr, DecidableEq

/-- A row of `snapshots_deltas` (`skill_deltas`/`activity_deltas` are stored
as JSON text; modelled structurally). -/
structure DeltaRow where
  current_snapshot_id : Int
  previous_snapshot_id : Option Int
  total_xp_delta : Int
  skill_deltas : List SkillDelta
  activity_deltas : List ActivityDelta
  time_diff_hours : Option Rat
deriving Repr, DecidableEq

/-- The relational store: table contents in insertion (rowid) order plus the
autoincrement counters. -/
structure Store where
  accounts : List AccountRow := []
  snapshots : List SnapshotRow := []
  skills : List SkillRow := []
  activities : List ActivityRow := []
  deltas : List DeltaRow := []
  nextAccountId : Int := 1
  nextSnapshotId : Int := 1
deriving Repr, DecidableEq

/-! ### `web/services/snapshot_ingest.py` -/

/-- The `metadata` dict of a snapshot payload, as read by `ingest_result`. -/
structure IngestMetadata where
  player : Option String := none
  resolved_mode : Option String := none
  requested_mode : Option String := none
  snapshot_id : Option String := none
  fetched_at : Option Int := none
  endpoint : Option String := none
  latency_ms : Option Int := none
  agent_version : Option String := none
  total_level : Option Int := none
  total_xp : Option Int := none
deriving Repr, DecidableEq

/-- A snapshot payload file: metadata, data and optional precomputed delta. -/
structure IngestPayload where
  metadata : IngestMetadata := {}
  data : SnapshotData := {}
  delta : Option Delta := none
deriving Repr, DecidableEq

/-- The parts of `SnapshotResult` that `ingest_result` reads. -/
structure SnapshotResultIn where
  player : String
  success : Bool
  payload : Option IngestPayload
deriving Repr, DecidableEq

/-- `str(skill.get("name", "")).lower() == "overall"`. -/
def isOverallEntry (s : SkillEntry) : Bool :=
  strLower (pyNameStr s.name) = "overall"

/-- `SnapshotIngestService._total_from_skills(skills) -> (total_level, total_xp)`. -/
def totalFromSkills (skills : List SkillEntry) : Int × Int :=
  let fromOverall :=
    match skills.find? isOverallEntry with
    | some s => (safeNumber s.level, safeNumber s.xp)
    | none => (0, 0)
  let totalLevel :=
    if fromOverall.1 = 0 then (skills.map (fun s => safeNumber s.level)).sum
    else fromOverall.1
  let totalXp :=
    if fromOverall.2 = 0 then (skills.map (fun s => safeNumber s.xp)).sum
    else fromOverall.2
  (totalLevel, totalXp)

/-- `SnapshotIngestService._ensure_account`. -/
def ensureAccount (store : Store) (player resolvedMode : String) : Int × Store :=
  match store.accounts.find? (fun a => a.name == player) with
  | some account =>
    (account.id,
     { store with accounts := store.accounts.map (fun a =>
         if a.id = account.id then { a with default_mode := resolvedMode } else a) })
  | none =>
    (store.nextAccountId,
     { store with
        accounts := store.accounts ++ [⟨store.nextAccountId, player, resolvedMode⟩],
        nextAccountId := store.nextAccountId + 1 })

/-- The `skill_id` column value for the skill at position `idx`. -/
def skillIdFor (idx : Nat) (skill : SkillEntry) : Int :=
  match pyOrInt skill.id skill.skill_id with
  | some v => v
  | none =>
    match SKILLS.indexOf? (strStrip (pyNameStr skill.name)) with
    | some i => (i : Int)
    | none => (idx : Int)

/-- `SnapshotIngestService._insert_skills` (the rows it inserts, in order). -/
def insertSkills (store : Store) (snapshotDbId : Int) (skills : List SkillEntry) :
    Store :=
  { store with skills := store.skills ++ skills.enum.map (fun p =>
      { snapshot_id := snapshotDbId, skill_id := skillIdFor p.1 p.2,
        name := p.2.name, level := p.2.level, xp := p.2.xp, rank := p.2.rank }) }

/-- The `activity_id` column value for the activity at position `idx`. -/
def activityIdFor (idx : Nat) (activity : ActivityEntry) : SqlId :=
  match pyOrInt activity.id activity.activity_id with
  | some v => .int v
  | none =>
    match alookup (strStrip (pyNameStr activity.name)) ACTIVITY_LOOKUP with
    | some display => .str display
    | none => .int (idx : Int)

/-- `SnapshotIngestService._insert_activities`. -/
def insertActivities (store : Store) (snapshotDbId : Int)
    (activities : List ActivityEntry) : Store :=
  { store with activities := store.activities ++ activities.enum.map (fun p =>
      { snapshot_id := snapshotDbId, activity_id := activityIdFor p.1 p.2,
        name := p.2.name, score := p.2.score, rank := p.2.rank }) }

/-- The previous-snapshot query in `_insert_delta`: strictly earlier
`fetched_at` for the account, most recent first (a SQL comparison against
NULL matches nothing, so a missing timestamp on either side excludes). -/
def findPrevSnapshot (store : Store) (accountId : Int) (fetchedAt : Option Int) :
    Option SnapshotRow :=
  match fetchedAt with
  | none => none
  | some t =>
    let cands := store.snapshots.filter (fun r =>
      decide (r.account_id = accountId) &&
        (match r.fetched_at with
         | some u => decide (u < t)
         | none => false))
    match cands with
    | [] => none
    | c :: cs =>
      some (pyMax (fun a b => decide (safeNumber b.fetched_at < safeNumber a.fetched_at)) c cs)

/-- `SnapshotIngestService._insert_delta`: recomputes the delta against the
stored previous snapshot when one exists (rowids are ≥ 1, so `if prev_id:`
is previous-snapshot existence), inserts a `snapshots_deltas` row unless the
delta is `None`, and returns the delta actually used. -/
def insertDeltaStep (store : Store) (accountId snapshotDbId : Int)
    (fetchedAt : Option Int) (payloadDelta : Option Delta)
    (currentSkills : List SkillEntry) (currentActivities : List ActivityEntry) :
    Option Delta × Store :=
  let prev := findPrevSnapshot store accountId fetchedAt
  let timeDiffHours : Option Rat :=
    match prev, fetchedAt with
    | some p, some t =>
      match p.fetched_at with
      | some u => some (((t - u : Int) : Rat) / 3600)
      | none => none
    | _, _ => none
  let delta :=
    match prev with
    | some p =>
      let prevSkills := (store.skills.filter (fun (r : SkillRow) => decide (r.snapshot_id = p.id))).map
        (fun (r : SkillRow) => ({ name := r.name, level := r.level, xp := r.xp, rank := r.rank } : SkillEntry))
      let prevActs := (store.activities.filter (fun (r : ActivityRow) => decide (r.snapshot_id = p.id))).map
        (fun (r : ActivityRow) => ({ name := r.name, score := r.score, rank := r.rank } : ActivityEntry))
      some (computeSnapshotDelta ⟨prevSkills, prevActs⟩ ⟨currentSkills, currentActivities⟩)
    | none => payloadDelta
  match delta with
  | none => (none, store)
  | some d =>
    (some d,
     { store with deltas := store.deltas ++
         [{ current_snapshot_id := snapshotDbId,
            previous_snapshot_id := prev.map SnapshotRow.id,
            total_xp_delta := d.total_xp_delta, skill_deltas := d.skill_deltas,
            activity_deltas := d.activity_deltas, time_diff_hours := timeDiffHours }] })

/-- What `ingest_result` returns: Python `None`, the bare integer id of an
already-present snapshot, or the fresh-insert dict
`{"snapshot_db_id", "delta", "delta_summary"}`. -/
inductive IngestOutcome where
  | nothing
  | existingId (id : Int)
  | inserted (snapshot_db_id : Int) (delta : Option Delta) (delta_summary : Option String)
deriving Repr, DecidableEq

/-- The duplicate check `SELECT id FROM snapshots WHERE snapshot_id = ?`
(`? = NULL` matches no row). -/
def findSnapshotBySid (store : Store) (sid : Option String) : Option SnapshotRow :=
  match sid with
  | none => none
  | some s => store.snapshots.find? (fun r => r.snapshot_id == some s)

/-- Body of `ingest_result` once `result.success` and `result.payload` hold. -/
def ingestPayload (store : Store) (resultPlayer : String) (payload : IngestPayload) :
    IngestOutcome × Store :=
  let metadata := payload.metadata
  let player := pyOrStr metadata.player resultPlayer
  let resolvedMode := pyOrStr metadata.resolved_mode (pyOrStr metadata.requested_mode "main")
  let snapshotId := metadata.snapshot_id
  let fetchedAt := metadata.fetched_at
  let skills := payload.data.skills
  let activities := payload.data.activities
  let totals :=
    match metadata.total_level, metadata.total_xp with
    | some tl, some txp => (tl, txp)
    | _, _ => totalFromSkills skills
  match findSnapshotBySid store snapshotId with
  | some existing => (.existingId existing.id, store)
  | none =>
    let acct := ensureAccount store player resolvedMode
    let accountId := acct.1
    let store1 := acct.2
    let snapshotDbId := store1.nextSnapshotId
    let row : SnapshotRow :=
      { id := snapshotDbId, snapshot_id := snapshotId, account_id := accountId,
        fetched_at := fetchedAt, total_xp := some totals.2, total_level := some totals.1,
        endpoint := metadata.endpoint, latency_ms := metadata.latency_ms,
        agent_version := metadata.agent_version, requested_mode := metadata.requested_mode,
        resolved_mode := resolvedMode }
    let store2 := { store1 with snapshots := store1.snapshots ++ [row],
                                nextSnapshotId := snapshotDbId + 1 }
    let store3 := insertSkills store2 snapshotDbId skills
    let store4 := insertActivities store3 snapshotDbId activities
    let deltaRes := insertDeltaStep store4 accountId snapshotDbId fetchedAt
      payload.delta skills activities
    (.inserted snapshotDbId deltaRes.1 (deltaRes.1.map summarizeDelta), deltaRes.2)

/-- `SnapshotIngestService.ingest_result(result)`. -/
def ingestResult (store : Store) (result : SnapshotResultIn) : IngestOutcome × Store :=
  match result.success, result.payload with
  | true, some payload => ingestPayload store result.player payload
  | _, _ => (.nothing, store)

/-! ### `web/services/clan_stats.py`

`members` stands for the `_load_members` join result and `since` for
`_time_bounds(timeframe)` (`none` = all time). The leaderboard top-10
slicing and boss/clue display grouping after the fields modelled here are
pure presentation no claim touches. -/

/-- One `_load_members` row. -/
structure Member where
  account_id : Int
  name : String
  mode : String
deriving Repr, DecidableEq

/-- Ascending `ORDER BY fetched_at` (SQL NULLs sort first). -/
def fetchLt (a b : SnapshotRow) : Bool :=
  match a.fetched_at, b.fetched_at with
  | none, none => false
  | none, some _ => true
  | some _, none => false
  | some u, some v => decide (u < v)

/-- `_snapshots_since(account_id, since)`: snapshots at/after the boundary
(all of them when `since` is `none`), ascending by `fetched_at`. -/
def snapshotsSince (store : Store) (accountId : Int) (since : Option Int) :
    List SnapshotRow :=
  let rows := store.snapshots.filter (fun r =>
    decide (r.account_id = accountId) &&
      (match since with
       | none => true
       | some t =>
         match r.fetched_at with
         | some u => decide (t ≤ u)
         | none => false))
  stableSort fetchLt rows

/-- `_skills_for_snapshot`: `{row["name"]: row}` (the name can be NULL). -/
def skillsForSnapshot (store : Store) (snapshotId : Int) :
    List (Option String × SkillRow) :=
  dictBy (fun (r : SkillRow) => some r.name)
    (store.skills.filter (fun (r : SkillRow) => decide (r.snapshot_id = snapshotId)))

/-- `_activities_for_snapshot`. -/
def activitiesForSnapshot (store : Store) (snapshotId : Int) :
    List (Option String × ActivityRow) :=
  dictBy (fun (r : ActivityRow) => some r.name)
    (store.activities.filter (fun (r : ActivityRow) => decide (r.snapshot_id = snapshotId)))

/-- One leaderboard row `{"name", "xp_gain", "level_gain"}`. -/
structure LeaderboardEntry where
  name : String
  xp_gain : Int
  level_gain : Int
deriving Repr, DecidableEq

/-- The `totals` dict of `compute_stats`. -/
structure Totals where
  xp : Int
  level : Int
  members : Nat
  xp_gain : Int
  level_gain : Int
deriving Repr, DecidableEq

/-- The mutable accumulators of the `compute_stats` member loop. -/
structure StatsAcc where
  xp : Int := 0
  level : Int := 0
  xp_gain : Int := 0
  level_gain : Int := 0
  perSkill : List (Option String × Int) := []
  perActivity : List (Option String × Int) := []
  perActivityTop : List (Option String × (String × Int)) := []
  perActivityCurrent : List (Option String × (Int × String × Int)) := []
  leaderboard : List LeaderboardEntry := []
deriving Repr, DecidableEq

/-- The "current highs per activity" loop body (fallback display data). -/
def currentHighStep (memberName : String) (a : StatsAcc)
    (p : Option String × ActivityRow) : StatsAcc :=
  let score := safeNumber p.2.score
  match alookup p.1 a.perActivityCurrent with
  | none =>
    { a with perActivityCurrent := upsert a.perActivityCurrent p.1 (score, memberName, score) }
  | some existing =>
    if existing.1 < score then
      { a with perActivityCurrent := upsert a.perActivityCurrent p.1 (score, memberName, score) }
    else a

/-- The per-skill loop body: positive XP deltas accumulate into `per_skill`,
positive level deltas are added onto the member's running `lvl_gain`. -/
def skillGainStep (baseSkills : List (Option String × SkillRow))
    (st : List (Option String × Int) × Int) (p : Option String × SkillRow) :
    List (Option String × Int) × Int :=
  let prevRow := alookup p.1 baseSkills
  let xpDelta := safeNumber p.2.xp - safeNumber (prevRow.bind SkillRow.xp)
  let levelDelta := safeNumber p.2.level - safeNumber (prevRow.bind SkillRow.level)
  let st1 :=
    if 0 < xpDelta then
      (upsert st.1 p.1 ((alookup p.1 st.1).getD 0 + xpDelta), st.2)
    else st
  if 0 < levelDelta then (st1.1, st1.2 + levelDelta) else st1

/-- The per-activity loop body: positive score deltas accumulate into
`per_activity` and the per-activity top contributor. -/
def activityGainStep (memberName : String)
    (baseActs : List (Option String × ActivityRow))
    (st : List (Option String × Int) × List (Option String × (String × Int)))
    (p : Option String × ActivityRow) :
    List (Option String × Int) × List (Option String × (String × Int)) :=
  let deltaVal := safeNumber p.2.score -
    safeNumber ((alookup p.1 baseActs).bind ActivityRow.score)
  if 0 < deltaVal then
    let pa := upsert st.1 p.1 ((alookup p.1 st.1).getD 0 + deltaVal)
    let pat :=
      match alookup p.1 st.2 with
      | none => upsert st.2 p.1 (memberName, deltaVal)
      | some top =>
        if top.2 < deltaVal then upsert st.2 p.1 (memberName, deltaVal) else st.2
    (pa, pat)
  else st

/-- One iteration of the `compute_stats` member loop (a member with no
snapshot in the window is skipped). -/
def processMember (store : Store) (since : Option Int) (acc : StatsAcc)
    (m : Member) : StatsAcc :=
  let snaps := snapshotsSince store m.account_id since
  match snaps with
  | [] => acc
  | baseline :: rest =>
    let latest := rest.getLastD baseline
    let acc1 := { acc with xp := acc.xp + safeNumber latest.total_xp,
                           level := acc.level + safeNumber latest.total_level }
    let latestActs := activitiesForSnapshot store latest.id
    let acc2 := latestActs.foldl (currentHighStep m.name) acc1
    let xpGain := safeNumber latest.total_xp - safeNumber baseline.total_xp
    let baseSkills := skillsForSnapshot store baseline.id
    let latestSkills := skillsForSnapshot store latest.id
    let skillStep := latestSkills.foldl (skillGainStep baseSkills)
      (acc2.perSkill, safeNumber latest.total_level - safeNumber baseline.total_level)
    let baseActs := activitiesForSnapshot store baseline.id
    let actStep := latestActs.foldl (activityGainStep m.name baseActs)
      (acc2.perActivity, acc2.perActivityTop)
    { acc2 with
        xp_gain := acc2.xp_gain + xpGain,
        level_gain := acc2.level_gain + skillStep.2,
        perSkill := skillStep.1,
        perActivity := actStep.1,
        perActivityTop := actStep.2,
        leaderboard := acc2.leaderboard ++ [⟨m.name, xpGain, skillStep.2⟩] }

/-- What `compute_stats` returns (before the top-10/boss/clue presentation). -/
structure ClanStats where
  since : Option Int
  totals : Totals
  leaderboard : List LeaderboardEntry
  perSkill : List (Option String × Int)
  perActivity : List (Option String × Int)
  perActivityTop : List (Option String × (String × Int))
  perActivityCurrent : List (Option String × (Int × String × Int))
deriving Repr, DecidableEq

/-- `ClanStatsService.compute_stats`. -/
def computeStats (store : Store) (members : List Member) (since : Option Int) :
    ClanStats :=
  let final := members.foldl (processMember store since) {}
  { since := since,
    totals := { xp := final.xp, level := final.level, members := members.length,
                xp_gain := final.xp_gain, level_gain := final.level_gain },
    leaderboard := stableSort (fun a b => decide (b.xp_gain < a.xp_gain)) final.leaderboard,
    perSkill := final.perSkill, perActivity := final.perActivity,
    perActivityTop := final.perActivityTop,
    perActivityCurrent := final.perActivityCurrent }

/-! ### `agents/osrs_snapshot_agent.py` -/

/-- The delta-related fields of a successful `SnapshotResult`
(`message` is set to the delta summary). -/
structure AgentRunOutcome where
  delta : Option Delta
  delta_summary : String
  message : String
deriving Repr, DecidableEq

/-- The delta/summary step of `SnapshotAgent.run` for one successful fetch:
`previousData` is the `"data"` section of the most recent earlier snapshot
file when one exists (`_previous_snapshot_path` + `_load_snapshot`),
`normalizedData` the freshly normalized payload. -/
def agentSnapshotOutcome (previousData : Option SnapshotData)
    (normalizedData : SnapshotData) : AgentRunOutcome :=
  match previousData with
  | some prev =>
    let d := computeSnapshotDelta prev normalizedData
    { delta := some d, delta_summary := summarizeDelta d, message := summarizeDelta d }
  | none =>
    { delta := none, delta_summary := "Initial snapshot.", message := "Initial snapshot." }

/-! ## Concrete instances used by witnesses and counterexamples -/

/-- `countSid store s`: how many `snapshots` rows carry `snapshot_id = s`. -/
def countSid (store : Store) (s : String) : Nat :=
  (store.snapshots.filter (fun r => r.snapshot_id == some s)).length

/-- Probe successes: hardcore and ironman, ironman strictly ahead on XP. -/
def fallenSuccesses : List (String × SuccessEntry) :=
  [("hardcore", { xp := some 100, level := some 50, url := "u1" }),
   ("ironman", { xp := some 150, level := some 50, url := "u2" })]

/-- A skill list whose "Overall" entry has level 0 (e.g. an unranked level
normalized to null) but non-zero XP. -/
def overallZeroSkills : List SkillEntry :=
  [{ name := some "Overall", level := some 0, xp := some 5000 },
   { name := some "Attack", level := some 50, xp := some 100 }]

/-- The "Overall" entry of `overallZeroSkills`. -/
def overallZeroEntry : SkillEntry :=
  { name := some "Overall", level := some 0, xp := some 5000 }

/-- A two-record mode cache, not dirty. -/
def sampleCache : ModeCacheState :=
  { data := [("alice", ⟨"ironman", "t0"⟩), ("bob", ⟨"main", "t1"⟩)], dirty := false }

/-- A fetch in which every mode reports the player as not found. -/
def noneFetch : String → String → FetchOutcome := fun _ _ => .notFound

/-- A fetch in which exactly the ironman hiscore has the player. -/
def ironOnlyFetch : String → String → FetchOutcome := fun _ m =>
  if m = "ironman" then .found { skills := some [.dictRow (some 50) (some 1000)] } "u"
  else .notFound

/-- A well-formed snapshot payload for ingestion. -/
def samplePayload : IngestPayload :=
  { metadata := { player := some "alice", resolved_mode := some "main",
                  snapshot_id := some "sid-1", fetched_at := some 1000 },
    data := { skills := [{ name := some "Overall", level := some 50, xp := some 1000 }] },
    delta := none }

/-- A successful `SnapshotResult` carrying `samplePayload`. -/
def sampleResult : SnapshotResultIn :=
  { player := "alice", success := true, payload := some samplePayload }

/-- A failed `SnapshotResult` with no payload. -/
def failedResult : SnapshotResultIn :=
  { player := "alice", success := false, payload := none }

/-- The one snapshot row of `singleSnapStore`. -/
def singleSnapRow : SnapshotRow :=
  { id := 1, snapshot_id := some "s1", account_id := 1,
    fetched_at := some 500, total_xp := some 1000, total_level := some 50 }

/-- A one-member clan whose account has a single snapshot. -/
def singleSnapStore : Store :=
  { accounts := [⟨1, "alice", "main"⟩],
    snapshots := [singleSnapRow],
    skills := [{ snapshot_id := 1, skill_id := 0, name := some "Attack",
                 level := some 50, xp := some 1000 }],
    activities := [], deltas := [], nextAccountId := 2, nextSnapshotId := 2 }

def singleMember : Member := ⟨1, "alice", "main"⟩

/-- A store with two snapshots for one account: total level 10 → 12 while the
stored "Attack" skill level goes 5 → 7. -/
def levelGainStore : Store :=
  { accounts := [⟨1, "alice", "main"⟩],
    snapshots := [{ id := 1, snapshot_id := some "s1", account_id := 1,
                    fetched_at := some 0, total_xp := some 100, total_level := some 10 },
                  { id := 2, snapshot_id := some "s2", account_id := 1,
                    fetched_at := some 3600, total_xp := some 200, total_level := some 12 }],
    skills := [{ snapshot_id := 1, skill_id := 0, name := some "Attack",
                 level := some 5, xp := some 50 },
               { snapshot_id := 2, skill_id := 0, name := some "Attack",
                 level := some 7, xp := some 150 }],
    activities := [], deltas := [], nextAccountId := 2, nextSnapshotId := 3 }

/-! ## Infrastructure lemmas -/

theorem stableInsert_perm {α : Type} (before : α → α → Bool) (e : α) (l : List α) :
    List.Perm (stableInsert before e l) (e :: l) := by
  induction l with
  | nil => simp [stableInsert]
  | cons x xs ih =>
    simp only [stableInsert]
    cases hb : before x e with
    | true =>
      simp only [if_pos rfl]
      exact (ih.cons x).trans (List.Perm.swap e x xs)
    | false => simp

theorem stableSort_perm {α : Type} (before : α → α → Bool) (l : List α) :
    List.Perm (stableSort before l) l := by
  induction l with
  | nil => exact List.Perm.refl _
  | cons x xs ih =>
    exact (stableInsert_perm before x (stableSort before xs)).trans (ih.cons x)

theorem stableInsert_pairwise {α : Type} {R : α → α → Prop} {before : α → α → Bool}
    (htrans : ∀ a b c, R a b → R b c → R a c)
    (htrue : ∀ a b, before a b = true → R a b)
    (hfalse : ∀ a b, before a b = false → R b a)
    (e : α) (l : List α) (h : l.Pairwise R) :
    (stableInsert before e l).Pairwise R := by
  induction l with
  | nil => simp [stableInsert]
  | cons x xs ih =>
    rcases List.pairwise_cons.mp h with ⟨hx, hxs⟩
    simp only [stableInsert]
    cases hb : before x e with
    | true =>
      simp only [if_pos rfl]
      refine List.pairwise_cons.mpr ⟨?_, ih hxs⟩
      intro y hy
      rcases List.mem_cons.mp ((stableInsert_perm before e xs).mem_iff.mp hy) with rfl | h2
      · exact htrue x y hb
      · exact hx y h2
    | false =>
      simp only [Bool.false_eq_true, if_false]
      refine List.pairwise_cons.mpr ⟨?_, h⟩
      intro y hy
      rcases List.mem_cons.mp hy with rfl | hyx
      · exact hfalse y e hb
      · exact htrans e x y (hfalse x e hb) (hx y hyx)

theorem stableSort_pairwise {α : Type} {R : α → α → Prop} {before : α → α → Bool}
    (htrans : ∀ a b c, R a b → R b c → R a c)
    (htrue : ∀ a b, before a b = true → R a b)
    (hfalse : ∀ a b, before a b = false → R b a)
    (l : List α) : (stableSort before l).Pairwise R := by
  induction l with
  | nil => simp [stableSort]
  | cons x xs ih => exact stableInsert_pairwise htrans htrue hfalse x _ ih

theorem upsert_keys {κ α : Type} [DecidableEq κ] (acc : List (κ × α)) (k : κ) (e : α) :
    (upsert acc k e).map Prod.fst =
      if k ∈ acc.map Prod.fst then acc.map Prod.fst else acc.map Prod.fst ++ [k] := by
  unfold upsert
  by_cases h : k ∈ acc.map Prod.fst
  · have hany : acc.any (fun p => p.1 = k) = true := by
      rcases List.mem_map.mp h with ⟨p, hp, hpk⟩
      exact List.any_eq_true.mpr ⟨p, hp, by simp [hpk]⟩
    simp only [hany, if_true, if_pos h, List.map_map, eq_self_iff_true]
    apply List.map_congr_left
    intro p _
    by_cases hpk : p.1 = k <;> simp [hpk]
  · have hany : acc.any (fun p => p.1 = k) = false := by
      rw [List.any_eq_false]
      intro p hp
      simp only [decide_eq_true_eq]
      intro hpk
      exact h (List.mem_map.mpr ⟨p, hp, hpk⟩)
    simp [hany, h]

theorem upsert_mem_keys {κ α : Type} [DecidableEq κ] (acc : List (κ × α)) (k k' : κ) (e : α) :
    k ∈ (upsert acc k' e).map Prod.fst ↔ k ∈ acc.map Prod.fst ∨ k = k' := by
  rw [upsert_keys]
  by_cases h : k' ∈ acc.map Prod.fst
  · simp only [if_pos h]
    constructor
    · exact Or.inl
    · rintro (hk | rfl)
      · exact hk
      · exact h
  · simp [if_neg h]

theorem upsert_keys_nodup {κ α : Type} [DecidableEq κ] (acc : List (κ × α)) (k : κ) (e : α)
    (h : (acc.map Prod.fst).Nodup) : ((upsert acc k e).map Prod.fst).Nodup := by
  rw [upsert_keys]
  by_cases hk : k ∈ acc.map Prod.fst
  · simpa [hk] using h
  · rw [if_neg hk, List.nodup_append]
    refine ⟨h, List.nodup_singleton k, ?_⟩
    intro a ha hmem
    rw [List.mem_singleton] at hmem
    subst hmem
    exact hk ha

theorem dictBy_keys_nodup_aux {κ α : Type} [DecidableEq κ] (toKey : α → Option κ)
    (l : List α) (acc : List (κ × α)) (h : (acc.map Prod.fst).Nodup) :
    (((l.foldl (fun acc e =>
        match toKey e with
        | some k => upsert acc k e
        | none => acc) acc)).map Prod.fst).Nodup := by
  induction l generalizing acc with
  | nil => exact h
  | cons e es ih =>
    simp only [List.foldl_cons]
    cases hke : toKey e with
    | none => exact ih acc h
    | some k => exact ih _ (upsert_keys_nodup acc k e h)

theorem dictBy_keys_nodup {κ α : Type} [DecidableEq κ] (toKey : α → Option κ)
    (l : List α) : ((dictBy toKey l).map Prod.fst).Nodup :=
  dictBy_keys_nodup_aux toKey l [] (by simp)

theorem mem_keys_of_foldl_aux {κ α : Type} [DecidableEq κ] (toKey : α → Option κ)
    (l : List α) (acc : List (κ × α)) (k : κ) :
    (k ∈ ((l.foldl (fun acc e =>
        match toKey e with
        | some k => upsert acc k e
        | none => acc) acc)).map Prod.fst) ↔
      k ∈ acc.map Prod.fst ∨ ∃ e ∈ l, toKey e = some k := by
  induction l generalizing acc with
  | nil => simp
  | cons e es ih =>
    simp only [List.foldl_cons]
    cases hke : toKey e with
    | none =>
      rw [ih acc, List.exists_mem_cons_iff, hke]
      simp
    | some k' =>
      rw [ih _, upsert_mem_keys, List.exists_mem_cons_iff, hke, Option.some_inj]
      constructor
      · rintro ((h | rfl) | h)
        · exact Or.inl h
        · exact Or.inr (Or.inl rfl)
        · exact Or.inr (Or.inr h)
      · rintro (h | (rfl | h))
        · exact Or.inl (Or.inl h)
        · exact Or.inl (Or.inr rfl)
        · exact Or.inr h

theorem dictBy_mem_keys {κ α : Type} [DecidableEq κ] (toKey : α → Option κ)
    (l : List α) (k : κ) :
    k ∈ (dictBy toKey l).map Prod.fst ↔ ∃ e ∈ l, toKey e = some k := by
  have h := mem_keys_of_foldl_aux toKey l [] k
  simpa [dictBy] using h

theorem alookup_eq_some_of_mem {κ α : Type} [DecidableEq κ] {l : List (κ × α)}
    (hnd : (l.map Prod.fst).Nodup) {k : κ} {a : α} (h : (k, a) ∈ l) :
    alookup k l = some a := by
  induction l with
  | nil => cases h
  | cons p rest ih =>
    have hnd' : p.1 ∉ rest.map Prod.fst ∧ (rest.map Prod.fst).Nodup := by
      rw [List.map_cons] at hnd
      exact List.nodup_cons.mp hnd
    rcases List.mem_cons.mp h with heq | hmem
    · rw [← heq]
      simp [alookup]
    · have hk : p.1 ≠ k := by
        intro hpk
        exact hnd'.1 (by
          rw [hpk]
          exact List.mem_map.mpr ⟨(k, a), hmem, rfl⟩)
      rcases p with ⟨k', a'⟩
      simp only [alookup, if_neg hk]
      exact ih hnd'.2 hmem

theorem mem_of_alookup_eq_some {κ α : Type} [DecidableEq κ] {l : List (κ × α)}
    {k : κ} {a : α} (h : alookup k l = some a) : (k, a) ∈ l := by
  induction l with
  | nil => cases h
  | cons p rest ih =>
    rcases p with ⟨k', a'⟩
    by_cases hk : k' = k
    · subst hk
      rw [show alookup k' ((k', a') :: rest) = some a' from by simp [alookup]] at h
      rw [Option.some_inj] at h
      rw [h]
      exact List.mem_cons_self _ _
    · simp only [alookup, if_neg hk] at h
      exact List.mem_cons_of_mem _ (ih h)

theorem alookup_isSome_iff {κ α : Type} [DecidableEq κ] (l : List (κ × α)) (k : κ) :
    (alookup k l).isSome = true ↔ k ∈ l.map Prod.fst := by
  induction l with
  | nil => simp [alookup]
  | cons p rest ih =>
    rcases p with ⟨k', a'⟩
    by_cases hk : k' = k
    · subst hk
      simp [alookup]
    · simp only [alookup, if_neg hk, List.map_cons, List.mem_cons]
      rw [ih]
      constructor
      · exact Or.inr
      · rintro (rfl | h)
        · exact absurd rfl hk
        · exact h

theorem filterMap_map_sublist {α β κ : Type} (f : α → Option β) (key : α → κ)
    (g : β → κ) (hf : ∀ a b, f a = some b → g b = key a) (l : List α) :
    ((l.filterMap f).map g).Sublist (l.map key) := by
  induction l with
  | nil => simp
  | cons a as ih =>
    simp only [List.filterMap_cons, List.map_cons]
    cases hfa : f a with
    | none => exact ih.cons (key a)
    | some b =>
      simp only [List.map_cons]
      rw [hf a b hfa]
      exact ih.cons₂ (key a)

theorem stableSort_desc_pairwise {β : Type} (key : β → Int) (l : List β) :
    (stableSort (fun a b => decide (key b < key a)) l).Pairwise
      (fun a b => key b ≤ key a) := by
  apply stableSort_pairwise
  · intro a b c hab hbc
    exact le_trans hbc hab
  · intro a b h
    exact le_of_lt (of_decide_eq_true h)
  · intro a b h
    exact le_of_not_lt (of_decide_eq_false h)

theorem sortedFilterMap_mem {α β κ : Type} [DecidableEq κ] (before : β → β → Bool)
    (f : (κ × α) → Option β) (idx : List (κ × α)) (hnd : (idx.map Prod.fst).Nodup)
    (keyOf : β → κ) (hf : ∀ p d, f p = some d → keyOf d = p.1) (d : β) :
    d ∈ stableSort before (idx.filterMap f) ↔
      ∃ a, alookup (keyOf d) idx = some a ∧ f (keyOf d, a) = some d := by
  rw [(stableSort_perm before (idx.filterMap f)).mem_iff, List.mem_filterMap]
  constructor
  · rintro ⟨⟨k, a⟩, hmem, hfd⟩
    have hk : keyOf d = k := hf (k, a) d hfd
    subst hk
    exact ⟨a, alookup_eq_some_of_mem hnd hmem, hfd⟩
  · rintro ⟨a, hlook, hfd⟩
    exact ⟨(keyOf d, a), mem_of_alookup_eq_some hlook, hfd⟩

theorem sortedFilterMap_names_nodup {α β κ : Type} [DecidableEq κ]
    (before : β → β → Bool) (f : (κ × α) → Option β) (idx : List (κ × α))
    (hnd : (idx.map Prod.fst).Nodup) (keyOf : β → κ)
    (hf : ∀ p d, f p = some d → keyOf d = p.1) :
    ((stableSort before (idx.filterMap f)).map keyOf).Nodup := by
  have hsub := filterMap_map_sublist f Prod.fst keyOf hf idx
  have hperm := (stableSort_perm before (idx.filterMap f)).map keyOf
  exact hperm.nodup_iff.mpr (hsub.nodup hnd)

theorem skillDeltaEntry_eq_some_iff (prevSkills : List (String × SkillEntry))
    (n : String) (cs : SkillEntry) (sd : SkillDelta) :
    skillDeltaEntry prevSkills (n, cs) = some sd ↔
      sd.name = n ∧
        sd.xp_delta = numberDelta ((alookup n prevSkills).bind SkillEntry.xp) cs.xp ∧
        sd.level_delta = numberDelta ((alookup n prevSkills).bind SkillEntry.level) cs.level ∧
        (0 < sd.xp_delta ∨ 0 < sd.level_delta) := by
  unfold skillDeltaEntry
  by_cases h : 0 < numberDelta ((alookup n prevSkills).bind SkillEntry.xp) cs.xp ∨
      0 < numberDelta ((alookup n prevSkills).bind SkillEntry.level) cs.level
  · rw [if_pos h]
    constructor
    · rintro heq
      rw [Option.some_inj] at heq
      rw [← heq]
      exact ⟨rfl, rfl, rfl, h⟩
    · rintro ⟨h1, h2, h3, _⟩
      rcases sd with ⟨sn, sx, sl⟩
      simp only at h1 h2 h3
      rw [h1, h2, h3]
  · rw [if_neg h]
    constructor
    · rintro heq
      cases heq
    · rintro ⟨h1, h2, h3, hpos⟩
      rw [h2, h3] at hpos
      exact absurd hpos h

theorem activityDeltaEntry_eq_some_iff (prevActivities : List (String × ActivityEntry))
    (n : String) (ca : ActivityEntry) (ad : ActivityDelta) :
    activityDeltaEntry prevActivities (n, ca) = some ad ↔
      ad.name = n ∧
        ad.score_delta =
          numberDelta ((alookup n prevActivities).bind ActivityEntry.score) ca.score ∧
        0 < ad.score_delta := by
  unfold activityDeltaEntry
  by_cases h : 0 < numberDelta ((alookup n prevActivities).bind ActivityEntry.score) ca.score
  · rw [if_pos h]
    constructor
    · rintro heq
      rw [Option.some_inj] at heq
      rw [← heq]
      exact ⟨rfl, rfl, h⟩
    · rintro ⟨h1, h2, _⟩
      rcases ad with ⟨an, av⟩
      simp only at h1 h2
      rw [h1, h2]
  · rw [if_neg h]
    constructor
    · rintro heq
      cases heq
    · rintro ⟨h1, h2, hpos⟩
      rw [h2] at hpos
      exact absurd hpos h

theorem skillDeltaEntry_name (prevSkills : List (String × SkillEntry))
    (p : String × SkillEntry) (d : SkillDelta)
    (h : skillDeltaEntry prevSkills p = some d) : d.name = p.1 := by
  rcases p with ⟨n, cs⟩
  exact ((skillDeltaEntry_eq_some_iff prevSkills n cs d).mp h).1

theorem activityDeltaEntry_name (prevActivities : List (String × ActivityEntry))
    (p : String × ActivityEntry) (d : ActivityDelta)
    (h : activityDeltaEntry prevActivities p = some d) : d.name = p.1 := by
  rcases p with ⟨n, ca⟩
  exact ((activityDeltaEntry_eq_some_iff prevActivities n ca d).mp h).1

theorem ingestResult_eq (store : Store) (result : SnapshotResultIn)
    (payload : IngestPayload) (hs : result.success = true)
    (hp : result.payload = some payload) :
    ingestResult store result = ingestPayload store result.player payload := by
  rcases result with ⟨p, s, pay⟩
  simp only at hs hp
  subst hs
  subst hp
  rfl

theorem ingestResult_none (store : Store) (result : SnapshotResultIn)
    (h : result.success = false ∨ result.payload = none) :
    ingestResult store result = (.nothing, store) := by
  rcases result with ⟨p, s, pay⟩
  rcases h with h | h
  · simp only at h
    subst h
    rfl
  · simp only at h
    subst h
    cases s <;> rfl

theorem ingestPayload_existing (store : Store) (resultPlayer : String)
    (payload : IngestPayload) (ex : SnapshotRow)
    (hfind : findSnapshotBySid store payload.metadata.snapshot_id = some ex) :
    ingestPayload store resultPlayer payload = (.existingId ex.id, store) := by
  simp [ingestPayload, hfind]

theorem ensureAccount_snapshots (store : Store) (p m : String) :
    (ensureAccount store p m).2.snapshots = store.snapshots := by
  unfold ensureAccount
  split <;> rfl

theorem insertSkills_snapshots (store : Store) (i : Int) (l : List SkillEntry) :
    (insertSkills store i l).snapshots = store.snapshots := rfl

theorem insertActivities_snapshots (store : Store) (i : Int) (l : List ActivityEntry) :
    (insertActivities store i l).snapshots = store.snapshots := rfl

theorem insertDeltaStep_snapshots (store : Store) (accountId snapshotDbId : Int)
    (fetchedAt : Option Int) (payloadDelta : Option Delta)
    (cs : List SkillEntry) (ca : List ActivityEntry) :
    (insertDeltaStep store accountId snapshotDbId fetchedAt payloadDelta cs ca).2.snapshots =
      store.snapshots := by
  unfold insertDeltaStep
  dsimp only
  split <;> rfl

theorem ingestPayload_fresh (store : Store) (resultPlayer : String)
    (payload : IngestPayload)
    (hfind : findSnapshotBySid store payload.metadata.snapshot_id = none) :
    ∃ row : SnapshotRow,
      (ingestPayload store resultPlayer payload).2.snapshots =
        store.snapshots ++ [row] ∧
      row.snapshot_id = payload.metadata.snapshot_id := by
  simp only [ingestPayload, hfind, insertDeltaStep_snapshots,
    insertActivities_snapshots, insertSkills_snapshots]
  exact ⟨_, by rw [ensureAccount_snapshots], rfl⟩

theorem ingestPayload_fresh_outcome (store : Store) (resultPlayer : String)
    (payload : IngestPayload)
    (hfind : findSnapshotBySid store payload.metadata.snapshot_id = none) :
    ∃ dbId d ds, (ingestPayload store resultPlayer payload).1 =
      .inserted dbId d ds := by
  simp only [ingestPayload, hfind]
  exact ⟨_, _, _, rfl⟩

theorem countSid_zero (store : Store) (s : String)
    (h : findSnapshotBySid store (some s) = none) : countSid store s = 0 := by
  unfold findSnapshotBySid at h
  unfold countSid
  rw [List.length_eq_zero, List.filter_eq_nil_iff]
  intro a ha
  have := List.find?_eq_none.mp h a ha
  simpa using this

theorem countSid_pos (store : Store) (s : String) (ex : SnapshotRow)
    (h : findSnapshotBySid store (some s) = some ex) : 1 ≤ countSid store s := by
  unfold findSnapshotBySid at h
  have hmem := List.mem_of_find?_eq_some h
  have hpred := List.find?_some h
  exact List.length_pos_of_mem (List.mem_filter.mpr ⟨hmem, hpred⟩)

theorem findSnapshotBySid_of_count_pos (store : Store) (s : String)
    (h : 1 ≤ countSid store s) :
    ∃ ex, findSnapshotBySid store (some s) = some ex := by
  unfold countSid at h
  have hne : store.snapshots.filter (fun r => r.snapshot_id == some s) ≠ [] := by
    intro hnil
    rw [hnil] at h
    simp at h
  rcases List.exists_mem_of_ne_nil _ hne with ⟨x, hx⟩
  rcases List.mem_filter.mp hx with ⟨hmem, hpred⟩
  have : (store.snapshots.find? (fun r => r.snapshot_id == some s)).isSome :=
    List.find?_isSome.mpr ⟨x, hmem, hpred⟩
  rcases Option.isSome_iff_exists.mp this with ⟨ex, hex⟩
  exact ⟨ex, hex⟩

theorem alookup_fst_mem {κ α : Type} [DecidableEq κ] {l : List (κ × α)}
    (hnd : (l.map Prod.fst).Nodup) {p : κ × α} (hp : p ∈ l) :
    alookup p.1 l = some p.2 := by
  rcases p with ⟨k, a⟩
  exact alookup_eq_some_of_mem hnd hp

theorem foldl_const {α σ : Type} (f : σ → α → σ) (l : List α)
    (h : ∀ s a, a ∈ l → f s a = s) : ∀ init, l.foldl f init = init := by
  induction l with
  | nil => intro init; rfl
  | cons a as ih =>
    intro init
    rw [List.foldl_cons, h init a (List.mem_cons_self a as)]
    exact ih (fun s b hb => h s b (List.mem_cons_of_mem a hb)) init

theorem foldl_fields {α σ τ : Type} (f : σ → α → σ) (g : σ → τ) (l : List α)
    (h : ∀ s a, a ∈ l → g (f s a) = g s) : ∀ init, g (l.foldl f init) = g init := by
  induction l with
  | nil => intro init; rfl
  | cons a as ih =>
    intro init
    rw [List.foldl_cons]
    rw [ih (fun s b hb => h s b (List.mem_cons_of_mem a hb)) (f init a)]
    exact h init a (List.mem_cons_self a as)

theorem skillGainStep_self (baseSkills : List (Option String × SkillRow))
    (hnd : (baseSkills.map Prod.fst).Nodup)
    (st : List (Option String × Int) × Int) (p : Option String × SkillRow)
    (hp : p ∈ baseSkills) : skillGainStep baseSkills st p = st := by
  have hlook : alookup p.1 baseSkills = some p.2 := alookup_fst_mem hnd hp
  simp [skillGainStep, hlook]

theorem activityGainStep_self (memberName : String)
    (baseActs : List (Option String × ActivityRow))
    (hnd : (baseActs.map Prod.fst).Nodup)
    (st : List (Option String × Int) × List (Option String × (String × Int)))
    (p : Option String × ActivityRow) (hp : p ∈ baseActs) :
    activityGainStep memberName baseActs st p = st := by
  have hlook : alookup p.1 baseActs = some p.2 := alookup_fst_mem hnd hp
  simp [activityGainStep, hlook]

theorem currentHighStep_leaderboard (n : String) (a : StatsAcc)
    (p : Option String × ActivityRow) :
    (currentHighStep n a p).leaderboard = a.leaderboard := by
  unfold currentHighStep
  dsimp only
  split
  · rfl
  · split <;> rfl

theorem currentHighStep_gains (n : String) (a : StatsAcc)
    (p : Option String × ActivityRow) :
    (currentHighStep n a p).xp_gain = a.xp_gain ∧
      (currentHighStep n a p).level_gain = a.level_gain ∧
      (currentHighStep n a p).perSkill = a.perSkill ∧
      (currentHighStep n a p).perActivity = a.perActivity ∧
      (currentHighStep n a p).perActivityTop = a.perActivityTop := by
  unfold currentHighStep
  dsimp only
  split
  · exact ⟨rfl, rfl, rfl, rfl, rfl⟩
  · split
    · exact ⟨rfl, rfl, rfl, rfl, rfl⟩
    · exact ⟨rfl, rfl, rfl, rfl, rfl⟩

theorem processMember_single (store : Store) (since : Option Int) (acc : StatsAcc)
    (m : Member) (s : SnapshotRow)
    (hsnaps : snapshotsSince store m.account_id since = [s]) :
    (processMember store since acc m).leaderboard =
      acc.leaderboard ++ [⟨m.name, 0, 0⟩] := by
  have hnd : ((skillsForSnapshot store s.id).map Prod.fst).Nodup :=
    dictBy_keys_nodup _ _
  have hskill : ∀ X : List (Option String × Int),
      (skillsForSnapshot store s.id).foldl
        (skillGainStep (skillsForSnapshot store s.id)) (X, (0 : Int)) = (X, 0) :=
    fun X => foldl_const _ _
      (fun st p hp => skillGainStep_self (skillsForSnapshot store s.id) hnd st p hp) _
  have hlead : ∀ init : StatsAcc,
      ((activitiesForSnapshot store s.id).foldl (currentHighStep m.name) init).leaderboard =
        init.leaderboard :=
    fun init => foldl_fields _ StatsAcc.leaderboard _
      (fun a p _ => currentHighStep_leaderboard m.name a p) init
  have hps : ∀ init : StatsAcc,
      ((activitiesForSnapshot store s.id).foldl (currentHighStep m.name) init).perSkill =
        init.perSkill :=
    fun init => foldl_fields _ StatsAcc.perSkill _
      (fun a p _ => (currentHighStep_gains m.name a p).2.2.1) init
  simp only [processMember, hsnaps, List.getLastD, sub_self]
  rw [hskill, hlead]

theorem processMember_leaderboard_mono (store : Store) (since : Option Int)
    (acc : StatsAcc) (m : Member) :
    ∃ tail, (processMember store since acc m).leaderboard = acc.leaderboard ++ tail := by
  have hlead : ∀ (l : List (Option String × ActivityRow)) (init : StatsAcc),
      (l.foldl (currentHighStep m.name) init).leaderboard = init.leaderboard :=
    fun l init => foldl_fields _ StatsAcc.leaderboard _
      (fun a p _ => currentHighStep_leaderboard m.name a p) init
  unfold processMember
  dsimp only
  split
  · exact ⟨[], (List.append_nil _).symm⟩
  · exact ⟨_, by rw [hlead]⟩

theorem mem_leaderboard_foldl (store : Store) (since : Option Int)
    (as : List Member) (e : LeaderboardEntry) :
    ∀ init : StatsAcc, e ∈ init.leaderboard →
      e ∈ (as.foldl (processMember store since) init).leaderboard := by
  induction as with
  | nil => intro init h; exact h
  | cons a rest ih =>
    intro init h
    rw [List.foldl_cons]
    apply ih
    rcases processMember_leaderboard_mono store since init a with ⟨t, ht⟩
    rw [ht]
    exact List.mem_append.mpr (Or.inl h)

/-! ## Claim theorems -/

/-- Claim C1: when `_pick_best_mode` has successful probe data for both
`"hardcore"` and `"ironman"`, it returns `"ironman"` iff ironman's overall
XP strictly exceeds hardcore's, and `"hardcore"` otherwise (ties included). -/
theorem pickBestMode_fallen_hardcore_rule
    (successes : List (String × SuccessEntry)) (hc im : SuccessEntry)
    (hhc : alookup "hardcore" successes = some hc)
    (him : alookup "ironman" successes = some im) :
    pickBestMode successes =
      if xpValue hc < xpValue im then "ironman" else "hardcore" := by
  rcases h2 : alookup "hardcore_group_ironman" successes with _ | hcg <;>
    rcases h4 : alookup "group_ironman" successes with _ | gi <;>
      rcases h5 : alookup "ultimate" successes with _ | ul <;>
        simp [pickBestMode, ironCandidates, IRON_FAMILY, hhc, him, h2, h4, h5, alookup]

/-- Claim C1 witness: with hardcore at 100 XP and ironman at 150 XP the
resolver picks ironman. -/
theorem pickBestMode_fallen_hardcore_rule_witness :
    pickBestMode fallenSuccesses = "ironman" := by
  have h := pickBestMode_fallen_hardcore_rule fallenSuccesses
    { xp := some 100, level := some 50, url := "u1" }
    { xp := some 150, level := some 50, url := "u2" } (by rfl) (by rfl)
  simpa using h

/-- Claim C4: `compute_snapshot_delta` returns exactly the skills present in
the current snapshot (indexed by truthy name; nameless entries dropped)
whose xp or level delta is strictly positive (null/missing values as 0),
sorted descending by `xp_delta` and without duplicate names, and likewise
exactly the activities with strictly positive score delta, sorted descending
by `score_delta`. -/
theorem computeSnapshotDelta_spec (previous current : SnapshotData) :
    ((computeSnapshotDelta previous current).skill_deltas.Pairwise
        (fun a b => b.xp_delta ≤ a.xp_delta)) ∧
    (((computeSnapshotDelta previous current).skill_deltas.map SkillDelta.name).Nodup) ∧
    (∀ n xd ld, (⟨n, xd, ld⟩ : SkillDelta) ∈
        (computeSnapshotDelta previous current).skill_deltas ↔
      ∃ cs, alookup n (skillIndex current.skills) = some cs ∧
        xd = numberDelta ((alookup n (skillIndex previous.skills)).bind SkillEntry.xp) cs.xp ∧
        ld = numberDelta ((alookup n (skillIndex previous.skills)).bind SkillEntry.level) cs.level ∧
        (0 < xd ∨ 0 < ld)) ∧
    (∀ n, (∃ cs, alookup n (skillIndex current.skills) = some cs) ↔
      ∃ e ∈ current.skills, truthyName e.name = some n) ∧
    ((computeSnapshotDelta previous current).activity_deltas.Pairwise
        (fun a b => b.score_delta ≤ a.score_delta)) ∧
    (((computeSnapshotDelta previous current).activity_deltas.map ActivityDelta.name).Nodup) ∧
    (∀ n sd, (⟨n, sd⟩ : ActivityDelta) ∈
        (computeSnapshotDelta previous current).activity_deltas ↔
      ∃ ca, alookup n (activityIndex current.activities) = some ca ∧
        sd = numberDelta
          ((alookup n (activityIndex previous.activities)).bind ActivityEntry.score) ca.score ∧
        0 < sd) ∧
    (∀ n, (∃ ca, alookup n (activityIndex current.activities) = some ca) ↔
      ∃ e ∈ current.activities, truthyName e.name = some n) := by
  have hndS : ((skillIndex current.skills).map Prod.fst).Nodup :=
    dictBy_keys_nodup _ _
  have hndA : ((activityIndex current.activities).map Prod.fst).Nodup :=
    dictBy_keys_nodup _ _
  have hskill : (computeSnapshotDelta previous current).skill_deltas =
      stableSort (fun a b => decide (b.xp_delta < a.xp_delta))
        ((skillIndex current.skills).filterMap
          (skillDeltaEntry (skillIndex previous.skills))) := rfl
  have hact : (computeSnapshotDelta previous current).activity_deltas =
      stableSort (fun a b => decide (b.score_delta < a.score_delta))
        ((activityIndex current.activities).filterMap
          (activityDeltaEntry (activityIndex previous.activities))) := rfl
  refine ⟨?_, ?_, ?_, ?_, ?_, ?_, ?_, ?_⟩
  · rw [hskill]
    exact stableSort_desc_pairwise SkillDelta.xp_delta _
  · rw [hskill]
    exact sortedFilterMap_names_nodup _ _ _ hndS SkillDelta.name
      (skillDeltaEntry_name _)
  · intro n xd ld
    rw [hskill, sortedFilterMap_mem _ _ _ hndS SkillDelta.name (skillDeltaEntry_name _)]
    constructor
    · rintro ⟨cs, hlook, hfd⟩
      rcases (skillDeltaEntry_eq_some_iff _ _ _ _).mp hfd with ⟨_, h2, h3, h4⟩
      exact ⟨cs, hlook, h2, h3, h4⟩
    · rintro ⟨cs, hlook, h2, h3, h4⟩
      refine ⟨cs, hlook, (skillDeltaEntry_eq_some_iff _ _ _ _).mpr ⟨rfl, h2, h3, h4⟩⟩
  · intro n
    have h1 := alookup_isSome_iff (skillIndex current.skills) n
    have h2 := dictBy_mem_keys (fun (e : SkillEntry) => truthyName e.name) current.skills n
    rw [Option.isSome_iff_exists] at h1
    exact h1.trans h2
  · rw [hact]
    exact stableSort_desc_pairwise ActivityDelta.score_delta _
  · rw [hact]
    exact sortedFilterMap_names_nodup _ _ _ hndA ActivityDelta.name
      (activityDeltaEntry_name _)
  · intro n sd
    rw [hact, sortedFilterMap_mem _ _ _ hndA ActivityDelta.name (activityDeltaEntry_name _)]
    constructor
    · rintro ⟨ca, hlook, hfd⟩
      rcases (activityDeltaEntry_eq_some_iff _ _ _ _).mp hfd with ⟨_, h2, h3⟩
      exact ⟨ca, hlook, h2, h3⟩
    · rintro ⟨ca, hlook, h2, h3⟩
      exact ⟨ca, hlook, (activityDeltaEntry_eq_some_iff _ _ _ _).mpr ⟨rfl, h2, h3⟩⟩
  · intro n
    have h1 := alookup_isSome_iff (activityIndex current.activities) n
    have h2 := dictBy_mem_keys (fun (e : ActivityEntry) => truthyName e.name)
      current.activities n
    rw [Option.isSome_iff_exists] at h1
    exact h1.trans h2

/-- Claim C5: with no prior snapshot, the agent stores `delta = None` and the
summary (and result message) is exactly `"Initial snapshot."`; no delta is
computed. -/
theorem agentSnapshotOutcome_initial (d : SnapshotData) :
    agentSnapshotOutcome none d =
      { delta := none, delta_summary := "Initial snapshot.",
        message := "Initial snapshot." } := rfl

/-- Claim C9: updating the mode cache with the mode it already holds for the
player changes nothing at all (record, timestamp, other players, dirty
flag), and a subsequent `persist` on a clean cache writes no file. -/
theorem modeCache_update_same_mode_noop (c : ModeCacheState)
    (player mode now : String) (r : ModeRecord)
    (hr : alookup player c.data = some r) (hm : r.mode = mode) :
    c.update player mode now = c ∧
      (c.dirty = false → (c.update player mode now).persist = (c, false)) := by
  have h1 : c.update player mode now = c := by
    simp [ModeCacheState.update, hr, hm]
  refine ⟨h1, fun hd => ?_⟩
  rw [h1]
  unfold ModeCacheState.persist
  rw [hd]
  simp

/-- Claim C9 witness: re-recording alice's cached `"ironman"` leaves the
cache untouched and persisting writes nothing. -/
theorem modeCache_update_same_mode_noop_witness :
    sampleCache.update "alice" "ironman" "t2" = sampleCache ∧
      (sampleCache.dirty = false →
        (sampleCache.update "alice" "ironman" "t2").persist = (sampleCache, false)) :=
  modeCache_update_same_mode_noop sampleCache "alice" "ironman" "t2"
    ⟨"ironman", "t0"⟩ (by rfl) rfl

/-- Claim C3 counterexample: the skill list `overallZeroSkills` contains an
"Overall" entry (level 0, xp 5000), yet the ingested `total_level` is 50 —
the sum over the other skills — not the 0 that "derived from the Overall
entry when one is present" prescribes. -/
theorem totalFromSkills_overall_zero_counterexample :
    overallZeroSkills.find? isOverallEntry = some overallZeroEntry ∧
      safeNumber overallZeroEntry.level = 0 ∧
      totalFromSkills overallZeroSkills = (50, 5000) ∧
      (totalFromSkills overallZeroSkills).1 ≠ safeNumber overallZeroEntry.level := by
  refine ⟨by decide, by decide, by decide, by decide⟩

/-- Claim C3 (amended): each total is taken from the first "Overall" entry
when that component is non-zero; a zero (or null) component falls back to
the sum over **all** skills, in which a unique "Overall" entry contributes
exactly its zero value — so the fallback equals the sum over the other
skills and "Overall" is never double counted; with no "Overall" entry the
totals are the plain sums. -/
theorem totalFromSkills_spec (skills : List SkillEntry) :
    (∀ s, skills.find? isOverallEntry = some s →
      totalFromSkills skills =
        ((if safeNumber s.level = 0 then (skills.map (fun t => safeNumber t.level)).sum
          else safeNumber s.level),
         (if safeNumber s.xp = 0 then (skills.map (fun t => safeNumber t.xp)).sum
          else safeNumber s.xp))) ∧
    (skills.find? isOverallEntry = none →
      totalFromSkills skills =
        ((skills.map (fun t => safeNumber t.level)).sum,
         (skills.map (fun t => safeNumber t.xp)).sum)) ∧
    (∀ s, skills.find? isOverallEntry = some s → safeNumber s.level = 0 →
      (skills.filter isOverallEntry).length = 1 →
      (totalFromSkills skills).1 =
        ((skills.filter (fun t => !(isOverallEntry t))).map (fun t => safeNumber t.level)).sum) ∧
    (∀ s, skills.find? isOverallEntry = some s → safeNumber s.xp = 0 →
      (skills.filter isOverallEntry).length = 1 →
      (totalFromSkills skills).2 =
        ((skills.filter (fun t => !(isOverallEntry t))).map (fun t => safeNumber t.xp)).sum) := by
  have hsplit : ∀ f : SkillEntry → Int,
      ((skills.filter isOverallEntry).map f).sum +
        ((skills.filter (fun t => !(isOverallEntry t))).map f).sum =
        (skills.map f).sum := by
    intro f
    induction skills with
    | nil => simp
    | cons a as ih =>
      cases hpa : isOverallEntry a <;> simp [List.filter_cons, hpa] <;> omega
  have hfilter : ∀ s, skills.find? isOverallEntry = some s →
      (skills.filter isOverallEntry).length = 1 →
      skills.filter isOverallEntry = [s] := by
    intro s hs hlen
    have hmem : s ∈ skills.filter isOverallEntry :=
      List.mem_filter.mpr ⟨List.mem_of_find?_eq_some hs, List.find?_some hs⟩
    rcases List.length_eq_one.mp hlen with ⟨x, hx⟩
    rw [hx] at hmem ⊢
    rw [List.mem_singleton.mp hmem]
  refine ⟨?_, ?_, ?_, ?_⟩
  · intro s hs
    simp [totalFromSkills, hs]
  · intro hs
    simp [totalFromSkills, hs]
  · intro s hs hzero hlen
    have h1 : (totalFromSkills skills).1 = (skills.map (fun t => safeNumber t.level)).sum := by
      simp [totalFromSkills, hs, hzero]
    have h2 := hsplit (fun t => safeNumber t.level)
    rw [hfilter s hs hlen] at h2
    simp only [List.map_singleton, List.sum_singleton, hzero, zero_add] at h2
    rw [h1, ← h2]
  · intro s hs hzero hlen
    have h1 : (totalFromSkills skills).2 = (skills.map (fun t => safeNumber t.xp)).sum := by
      simp [totalFromSkills, hs, hzero]
    have h2 := hsplit (fun t => safeNumber t.xp)
    rw [hfilter s hs hlen] at h2
    simp only [List.map_singleton, List.sum_singleton, hzero, zero_add] at h2
    rw [h1, ← h2]

/-- Claim C3 witness: on `overallZeroSkills` the zero-level "Overall" entry
makes the level total fall back to the other skills' sum, 50. -/
theorem totalFromSkills_spec_witness :
    (totalFromSkills overallZeroSkills).1 =
      ((overallZeroSkills.filter (fun t => !(isOverallEntry t))).map
        (fun t => safeNumber t.level)).sum :=
  (totalFromSkills_spec overallZeroSkills).2.2.1 overallZeroEntry
    (by decide) (by decide) (by decide)

/-- Claim C2: re-ingesting a successful payload whose `snapshot_id` is
already stored is a no-op — ingesting twice from a store holding at most one
row with that id leaves the store of the first ingestion unchanged (so no
snapshot, skill, activity or delta rows are added) and exactly one
`snapshots` row with that id. -/
theorem ingest_idempotent (store : Store) (result : SnapshotResultIn)
    (payload : IngestPayload) (s : String)
    (hs : result.success = true) (hp : result.payload = some payload)
    (hsid : payload.metadata.snapshot_id = some s)
    (hcount : countSid store s ≤ 1) :
    (ingestResult (ingestResult store result).2 result).2 =
      (ingestResult store result).2 ∧
    countSid (ingestResult store result).2 s = 1 := by
  have h1 := ingestResult_eq store result payload hs hp
  rcases hfind : findSnapshotBySid store payload.metadata.snapshot_id with _ | ex
  · -- fresh insert, then the duplicate check fires on the second run
    rcases ingestPayload_fresh store result.player payload hfind with ⟨row, hsnap, hrowsid⟩
    have hc0 : countSid store s = 0 := by
      apply countSid_zero
      rw [← hsid]
      exact hfind
    have hc1 : countSid (ingestResult store result).2 s = 1 := by
      unfold countSid
      rw [h1, hsnap, List.filter_append]
      have hrow : (row.snapshot_id == some s) = true := by
        rw [hrowsid, hsid]
        simp
      simp only [List.length_append, List.filter_cons, hrow, List.filter_nil]
      have : countSid store s = 0 := hc0
      unfold countSid at this
      rw [this]
      rfl
    rcases findSnapshotBySid_of_count_pos _ _ (le_of_eq hc1.symm) with ⟨ex', hfind2⟩
    have h2 : ingestResult (ingestResult store result).2 result =
        (.existingId ex'.id, (ingestResult store result).2) := by
      rw [ingestResult_eq _ result payload hs hp]
      apply ingestPayload_existing
      rw [hsid]
      exact hfind2
    exact ⟨by rw [h2], hc1⟩
  · -- already present: both runs leave the store untouched
    have hsame : ingestResult store result = (.existingId ex.id, store) := by
      rw [h1]
      exact ingestPayload_existing store result.player payload ex hfind
    have hc : countSid store s = 1 := by
      refine le_antisymm hcount (countSid_pos store s ex ?_)
      rw [← hsid]
      exact hfind
    constructor
    · simp only [hsame]
    · simp only [hsame, hc]

/-- Claim C2 witness: ingesting `sampleResult` twice into an empty store
leaves the single-ingestion store and exactly one `sid-1` row. -/
theorem ingest_idempotent_witness :
    (ingestResult (ingestResult {} sampleResult).2 sampleResult).2 =
      (ingestResult {} sampleResult).2 ∧
    countSid (ingestResult {} sampleResult).2 "sid-1" = 1 :=
  ingest_idempotent {} sampleResult samplePayload "sid-1" rfl rfl rfl (by decide)

/-- Claim C10: `ingest_result` returns Python `None` for an unsuccessful or
payload-less result; the bare integer id of the already-present snapshot
row when the duplicate check fires; and the
`{"snapshot_db_id", "delta", "delta_summary"}` dict for a fresh insert —
two success outcomes of different shapes. -/
theorem ingestResult_shapes (store : Store) (result : SnapshotResultIn) :
    ((result.success = false ∨ result.payload = none) →
      ingestResult store result = (.nothing, store)) ∧
    (∀ payload, result.success = true → result.payload = some payload →
      ((∀ ex, findSnapshotBySid store payload.metadata.snapshot_id = some ex →
          ingestResult store result = (.existingId ex.id, store)) ∧
       (findSnapshotBySid store payload.metadata.snapshot_id = none →
          ∃ dbId d ds, (ingestResult store result).1 = .inserted dbId d ds))) := by
  refine ⟨ingestResult_none store result, ?_⟩
  intro payload hs hp
  constructor
  · intro ex hex
    rw [ingestResult_eq store result payload hs hp]
    exact ingestPayload_existing store result.player payload ex hex
  · intro hnone
    rw [ingestResult_eq store result payload hs hp]
    exact ingestPayload_fresh_outcome store result.player payload hnone

/-- Claim C10 witness: a failed result yields `None`; a fresh successful
payload yields the inserted-dict shape. -/
theorem ingestResult_shapes_witness :
    ingestResult {} failedResult = (.nothing, ({} : Store)) ∧
    (∃ dbId d ds, (ingestResult {} sampleResult).1 = .inserted dbId d ds) :=
  ⟨(ingestResult_shapes {} failedResult).1 (Or.inl rfl),
   ((ingestResult_shapes {} sampleResult).2 samplePayload rfl rfl).2 rfl⟩

/-- Claim C6 counterexample: with a player absent from every hiscore table,
the auto-detect path probes all nine candidate modes, yet the `not_found`
result dict carries no `tested_modes` key at all — so not every detect_mode
result reports the modes that were actually probed. -/
theorem detectMode_probed_modes_counterexample :
    (detectMode noneFetch "p" "auto" {} false "t").1 = { status := "not_found" } ∧
    (detectMode noneFetch "p" "auto" {} false "t").1.tested_modes = none ∧
    buildCandidates (ModeCacheState.get {} "p") =
      ["hardcore", "hardcore_group_ironman", "ironman", "group_ironman",
       "ultimate", "main", "tournament", "seasonal", "deadman"] := by
  refine ⟨by rfl, by rfl, by rfl⟩

/-- Claim C6 (amended): only two outcomes of `detect_mode` carry
`tested_modes` — the stable-cache shortcut reports an empty list, and the
successful auto-detect probe reports exactly the modes whose probe returned
data, in probe order (not the full probed candidate list); the explicit-mode
path and the auto-detect `not_found` and `error` outcomes carry no
`tested_modes` key. -/
theorem detectMode_tested_modes_spec
    (fetch : String → String → FetchOutcome) (player rm : String)
    (cache : ModeCacheState) (force : Bool) (now : String) :
    ((¬force && isAutoMode (normalizeRequested rm) &&
        isStableCached (cache.get player)) = true →
      (detectMode fetch player rm cache force now).1.tested_modes = some []) ∧
    ((¬force && isAutoMode (normalizeRequested rm) &&
        isStableCached (cache.get player)) = false →
      isAutoMode (normalizeRequested rm) = false →
      (detectMode fetch player rm cache force now).1.tested_modes = none) ∧
    ((¬force && isAutoMode (normalizeRequested rm) &&
        isStableCached (cache.get player)) = false →
      isAutoMode (normalizeRequested rm) = true →
      probeAll fetch player (buildCandidates (cache.get player)) [] = .ok [] →
      (detectMode fetch player rm cache force now).1.status = "not_found" ∧
        (detectMode fetch player rm cache force now).1.tested_modes = none) ∧
    ((¬force && isAutoMode (normalizeRequested rm) &&
        isStableCached (cache.get player)) = false →
      isAutoMode (normalizeRequested rm) = true →
      ∀ msg, probeAll fetch player (buildCandidates (cache.get player)) [] = .error msg →
        (detectMode fetch player rm cache force now).1.status = "error" ∧
          (detectMode fetch player rm cache force now).1.tested_modes = none) ∧
    ((¬force && isAutoMode (normalizeRequested rm) &&
        isStableCached (cache.get player)) = false →
      isAutoMode (normalizeRequested rm) = true →
      ∀ s, probeAll fetch player (buildCandidates (cache.get player)) [] = .ok s →
        s ≠ [] →
        (detectMode fetch player rm cache force now).1.tested_modes =
          some (s.map Prod.fst)) := by
  refine ⟨?_, ?_, ?_, ?_, ?_⟩
  · intro h
    simp only [detectMode]
    split
    · rfl
    · rename_i heq _
      rw [h] at heq
      simp at heq
    · rename_i heq _
      rw [h] at heq
      simp at heq
  · intro h1 h2
    simp only [detectMode]
    split
    · rename_i heq
      rw [h1] at heq
      simp at heq
    · split
      · rfl
      · split <;> rfl
    · rename_i _ heq
      rw [h2] at heq
      simp at heq
  · intro h1 h2 hprobe
    simp only [detectMode]
    constructor <;>
      (split
       · rename_i heq
         rw [h1] at heq
         simp at heq
       · rename_i _ heq
         rw [h2] at heq
         simp at heq
       · rw [hprobe])
  · intro h1 h2 msg hprobe
    simp only [detectMode]
    constructor <;>
      (split
       · rename_i heq
         rw [h1] at heq
         simp at heq
       · rename_i _ heq
         rw [h2] at heq
         simp at heq
       · rw [hprobe])
  · intro h1 h2 s hprobe hne
    rcases s with _ | ⟨x, xs⟩
    · exact absurd rfl hne
    · simp only [detectMode]
      split
      · rename_i heq
        rw [h1] at heq
        simp at heq
      · rename_i _ heq
        rw [h2] at heq
        simp at heq
      · rw [hprobe]

/-- Claim C6 witness: probing a player present only on the ironman hiscore
yields `tested_modes = ["ironman"]` — the modes with data, not all nine
probed candidates. -/
theorem detectMode_tested_modes_spec_witness :
    (detectMode ironOnlyFetch "p" "auto" {} false "t").1.tested_modes =
      some ["ironman"] := by
  have h := (detectMode_tested_modes_spec ironOnlyFetch "p" "auto" {} false "t").2.2.2.2
  have hc : probeAll ironOnlyFetch "p" (buildCandidates (ModeCacheState.get {} "p")) [] =
      .ok [("ironman", { xp := some 1000, level := some 50, url := "u" })] := by rfl
  simpa using h (by rfl) (by rfl) _ hc (by simp)

theorem mem_foldl_leaderboard_of_mem (store : Store) (since : Option Int)
    (m : Member) (s : SnapshotRow)
    (hsnaps : snapshotsSince store m.account_id since = [s]) :
    ∀ members : List Member, m ∈ members → ∀ init : StatsAcc,
      (⟨m.name, 0, 0⟩ : LeaderboardEntry) ∈
        (members.foldl (processMember store since) init).leaderboard := by
  intro members
  induction members with
  | nil => intro hm; cases hm
  | cons a rest ih =>
    intro hm init
    rw [List.foldl_cons]
    rcases List.mem_cons.mp hm with heq | hmem
    · apply mem_leaderboard_foldl
      rw [← heq, processMember_single store since init m s hsnaps]
      exact List.mem_append.mpr (Or.inr (List.mem_singleton.mpr rfl))
    · exact ih hmem _

/-- Claim C7: a clan member whose account has exactly one snapshot inside the
window is aggregated (not skipped, no error) with that snapshot as both
baseline and latest, yielding zero XP (and level) gain on the leaderboard. -/
theorem computeStats_single_snapshot (store : Store) (members : List Member)
    (since : Option Int) (m : Member) (s : SnapshotRow)
    (hm : m ∈ members)
    (hsnaps : snapshotsSince store m.account_id since = [s]) :
    (⟨m.name, 0, 0⟩ : LeaderboardEntry) ∈
      (computeStats store members since).leaderboard := by
  have hsorted : (computeStats store members since).leaderboard =
      stableSort (fun a b => decide (b.xp_gain < a.xp_gain))
        ((members.foldl (processMember store since) {}).leaderboard) := rfl
  rw [hsorted]
  exact ((stableSort_perm _ _).mem_iff).mpr
    (mem_foldl_leaderboard_of_mem store since m s hsnaps members hm {})

/-- Claim C7 witness: alice has one snapshot after the window start and lands
on the leaderboard with zero gains. -/
theorem computeStats_single_snapshot_witness :
    (⟨"alice", 0, 0⟩ : LeaderboardEntry) ∈
      (computeStats singleSnapStore [singleMember] (some 0)).leaderboard :=
  computeStats_single_snapshot singleSnapStore [singleMember] (some 0)
    singleMember singleSnapRow (List.mem_singleton.mpr rfl) (by rfl)

/-- Claim C8: at `levelGainStore` (one member, window endpoints with
`total_level` 10 → 12 and stored skill "Attack" level 5 → 7) the reported
group level gain is 4 — the endpoint total-level difference (2) plus the
positive per-skill level delta (2) added again by the skill loop — although
the endpoint-only computation the claim (and spec §4.5) prescribe gives 2.
The XP gain, computed from the endpoints alone, is 100. -/
theorem computeStats_level_gain_double_count :
    (computeStats levelGainStore [singleMember] none).totals.level_gain = 4 ∧
    (computeStats levelGainStore [singleMember] none).totals.xp_gain = 100 := by
  refine ⟨by decide, by decide⟩

end Osrs
